import Mathlib

/-
Verification development for the open-neon-js client library.

Shallow embedding of the connection/stream lifecycle core
(packages/node device implementation, createDevice), the address and
ring-buffer utilities (packages/core/src/utils.js), and the blocking
facade (receiveGazeDatum).  JavaScript strings are modelled as Lean
strings or lists of characters, JS sparse arrays as lists of options,
and the cooperative event-loop semantics as an explicit labelled
transition system over a device-state record.
-/

namespace OpenNeon

/-! ### Errors

Model of createError from packages/core errors: a JS Error object with a
name, a human message and an optional machine code.  A plain JS Error
constructed with new Error(msg) carries no code field, modelled as none. -/

structure JsError where
  name : String
  message : String
  code : Option String
  deriving DecidableEq, Repr

/-- ConnectionError(message, details): name ConnectionError, code CONNECTION_FAILED. -/
def connectionError (message : String) : JsError :=
  ⟨"ConnectionError", message, some "CONNECTION_FAILED"⟩

/-- StreamError(message, code, details). -/
def streamError (message code : String) : JsError :=
  ⟨"StreamError", message, some code⟩

/-- APIError(message, code, details). -/
def apiError (message : String) : JsError :=
  ⟨"APIError", message, some "API_REQUEST_FAILED"⟩

/-! ### parseAddress (packages/core/src/utils.js, lines 290 to 307)

The JS code splits the address string on the colon character, trims the
host, and interprets the port segment with parseInt(s, 10); a port is
rejected when parseInt yields NaN or the value is outside 1..65535.
Strings are modelled as lists of characters so that the split and the
digit-prefix semantics of parseInt are explicit. -/

/-- Whitespace characters skipped by the JS number parsing and trim
(sufficient for the ASCII inputs of interest). -/
def isJsWhitespace (c : Char) : Bool :=
  c = ' ' || c = '\t' || c = '\n' || c = '\r'

/-- Numeric value of a list of decimal digit characters, most significant first. -/
def digitsVal (l : List Char) : Nat :=
  l.foldl (fun acc c => acc * 10 + (c.toNat - 48)) 0

/-- JS parseInt(s, 10): skip leading whitespace, read an optional sign,
then the longest prefix of decimal digits; NaN (none) when that prefix
is empty.  Trailing junk after the digits is ignored. -/
def jsParseInt10 (s : List Char) : Option Int :=
  let s1 := s.dropWhile isJsWhitespace
  let sign : Int := if s1.head? = some '-' then -1 else 1
  let s2 := if s1.head? = some '-' || s1.head? = some '+' then s1.tail else s1
  let ds := s2.takeWhile Char.isDigit
  if ds.isEmpty then none else some (sign * (digitsVal ds : Int))

/-- JS String.prototype.split with a single-character separator. -/
def jsSplit (sep : Char) : List Char → List (List Char)
  | [] => [[]]
  | c :: rest =>
    match jsSplit sep rest with
    | h :: t => if c = sep then [] :: h :: t else (c :: h) :: t
    | [] => if c = sep then [[], []] else [[c]]

/-- JS String.prototype.trim restricted to the whitespace set above. -/
def jsTrim (s : List Char) : List Char :=
  ((s.dropWhile isJsWhitespace).reverse.dropWhile isJsWhitespace).reverse

/-- parseAddress from packages/core/src/utils.js: empty input is rejected;
one segment yields the trimmed host with default port 8080; two segments
interpret the second with parseInt(s, 10) and bound-check 1..65535; more
segments are an invalid address format. -/
def parseAddress (address : List Char) : Except String (List Char × Int) :=
  if address.isEmpty then
    .error "Invalid address: must be a non-empty string"
  else
    match jsSplit ':' address with
    | [h] => .ok (jsTrim h, 8080)
    | [h, p] =>
      match jsParseInt10 p with
      | none => .error ("Invalid port number: " ++ String.mk p)
      | some v =>
        if v < 1 || v > 65535 then .error ("Invalid port number: " ++ String.mk p)
        else .ok (jsTrim h, v)
    | _ => .error ("Invalid address format: " ++ String.mk address)

/-! ### createCircularBuffer (packages/core/src/utils.js, lines 236 to 283)

The JS buffer is a fixed-size sparse array with head, tail and count
cursors.  The sparse array is modelled as a list of options of the fixed
length; unwritten slots hold none. -/

structure CircularBuffer (α : Type) where
  size : Nat
  buf : List (Option α)
  head : Nat
  tail : Nat
  count : Nat
  deriving DecidableEq, Repr

/-- createCircularBuffer(size): fresh buffer with all cursors at zero. -/
def createCircularBuffer (α : Type) (size : Nat) : CircularBuffer α :=
  ⟨size, List.replicate size none, 0, 0, 0⟩

/-- push(item): write at head, advance head; grow count while not full,
otherwise advance tail (evicting the oldest item). -/
def CircularBuffer.push (cb : CircularBuffer α) (item : α) : CircularBuffer α :=
  let buf := cb.buf.set cb.head (some item)
  let head := (cb.head + 1) % cb.size
  if cb.count < cb.size then
    { cb with buf := buf, head := head, count := cb.count + 1 }
  else
    { cb with buf := buf, head := head, tail := (cb.tail + 1) % cb.size }

/-- get(index): undefined past count, else the slot at tail + index mod size. -/
def CircularBuffer.get (cb : CircularBuffer α) (index : Nat) : Option α :=
  if cb.count ≤ index then none
  else cb.buf.getD ((cb.tail + index) % cb.size) none

/-- getLast(): the most recently pushed slot. -/
def CircularBuffer.getLast (cb : CircularBuffer α) : Option α :=
  if cb.count = 0 then none
  else cb.buf.getD ((cb.head - 1 + cb.size) % cb.size) none

/-- getAll(): the count stored slots starting at tail, oldest first. -/
def CircularBuffer.getAll (cb : CircularBuffer α) : List (Option α) :=
  (List.range cb.count).map (fun i => cb.buf.getD ((cb.tail + i) % cb.size) none)

/-- clear(): reset the cursors (the slot contents are not erased). -/
def CircularBuffer.clear (cb : CircularBuffer α) : CircularBuffer α :=
  { cb with head := 0, tail := 0, count := 0 }

/-- length getter. -/
def CircularBuffer.length (cb : CircularBuffer α) : Nat := cb.count

/-- One client operation on the buffer; the read operations (get, getAll,
getLast, length, isFull) do not mutate the buffer. -/
inductive BufOp (α : Type) where
  | push (x : α)
  | clear
  | read
  deriving DecidableEq, Repr

/-- Run a sequence of buffer operations. -/
def runBufOps (cb : CircularBuffer α) : List (BufOp α) → CircularBuffer α
  | [] => cb
  | .push x :: rest => runBufOps (cb.push x) rest
  | .clear :: rest => runBufOps cb.clear rest
  | .read :: rest => runBufOps cb rest

/-- Push a whole list of items in order. -/
def pushAll (cb : CircularBuffer α) (l : List α) : CircularBuffer α :=
  l.foldl CircularBuffer.push cb

/-- Abstract model of one push on the sequence of live items: append while
below capacity, otherwise drop the oldest and append. -/
def jsQueuePush (n : Nat) (l : List α) (x : α) : List α :=
  if l.length < n then l ++ [x] else l.tail ++ [x]

/-- Coupling invariant between a buffer state and the list of live items
it represents, oldest first. -/
def BufInv (cb : CircularBuffer α) (l : List α) : Prop :=
  cb.count = l.length ∧ l.length ≤ cb.size ∧ cb.tail < cb.size ∧
  cb.head = (cb.tail + cb.count) % cb.size ∧ cb.buf.length = cb.size ∧
  ∀ i, i < l.length → cb.buf.getD ((cb.tail + i) % cb.size) none = l[i]?

/-! ### receiveGazeDatum (packages/node/src/discovery.js, lines 346 to 372)

The facade keeps a plain JS array as gaze buffer.  receiveGazeDatum
first checks the buffer synchronously and resolves with shift() when it
is non-empty; otherwise it registers a rejection timer at timeoutMs with
a plain new Error (no taxonomy kind) and polls the buffer every 10 ms.
The poll is modelled over discrete ticks: feed t is the batch of samples
the stream handler appended before the check at time 10 * t; a check
wins only strictly before timeoutMs (at a tie the rejection timer was
registered first and fires first). -/

/-- The rejection value of the timeout path: a plain JS Error with no
machine code. -/
def rgdTimeoutError : JsError := ⟨"Error", "Timeout waiting for gaze data", none⟩

/-- Settled outcome of one receiveGazeDatum call: the settle time in ms,
and either the delivered sample with the remaining buffer, or the
rejection error. -/
inductive RgdOutcome (α : Type) where
  | resolved (settledAt : Nat) (value : α) (rest : List α)
  | rejected (settledAt : Nat) (e : JsError)
  deriving DecidableEq, Repr

/-- Buffer contents seen by the check at tick t: the initial buffer plus
all batches fed before that check. -/
def rgdBufAt (b0 : List α) (feed : Nat → List α) (t : Nat) : List α :=
  b0 ++ ((List.range t).map feed).flatten

/-- Poll ticks that fire strictly before the rejection timer: tick t is at
time 10 * t, and ticks start at 1 (the tick-0 check happens synchronously
inside the promise executor). -/
def rgdTicks (timeoutMs : Nat) : List Nat :=
  List.range' 1 ((timeoutMs + 9) / 10 - 1)

/-- One receiveGazeDatum call: immediate resolution from a non-empty
buffer, else the first polling tick that sees data, else rejection at
timeoutMs with the plain timeout Error. -/
def rgdRun (b0 : List α) (feed : Nat → List α) (timeoutMs : Nat) : RgdOutcome α :=
  match b0 with
  | x :: rest => .resolved 0 x rest
  | [] =>
    match (rgdTicks timeoutMs).find? (fun t => !(rgdBufAt b0 feed t).isEmpty) with
    | some t =>
      match rgdBufAt b0 feed t with
      | x :: rest => .resolved (10 * t) x rest
      | [] => .rejected timeoutMs rgdTimeoutError
    | none => .rejected timeoutMs rgdTimeoutError

/-! ### Device lifecycle core (src/unnamed/part_006, createDevice)

The async control flow of connect, disconnect and handleReconnect is
embedded as a labelled transition system.  An async function runs
synchronously up to its next await; each await is a suspension point
where other callbacks may interleave.  The environment supplies the
labels: user calls, HTTP and channel-open completions, the reconnect
timer, and the status channel closing.  One lifecycle task is in flight
at a time (pending); a user connect call while one is in flight is not
modelled (cooperative sequential scheduling).  Channels are identified
by allocation index, true meaning the open ready-state. -/

inductive ConnState where
  | disconnected
  | connecting
  | connected
  | reconnecting
  | error
  deriving DecidableEq, Repr

/-- Lifecycle events emitted on the device emitter. -/
inductive Ev where
  | connecting
  | connected
  | disconnected
  | reconnecting (attempt : Nat)
  | errorEv (e : JsError)
  deriving DecidableEq, Repr

/-- The error emitted when the reconnect attempt ceiling is reached. -/
def maxReconnectError : JsError :=
  connectionError "Maximum reconnection attempts exceeded"

/-- Where the single in-flight lifecycle task is suspended: awaiting the
status HTTP request, awaiting the status channel open, or sleeping in
the reconnect timer. -/
inductive ConnPending where
  | awaitingHttp
  | awaitingWs
  | sleeping
  deriving DecidableEq, Repr

/-- One gaze stream subscription (one run of the Observable producer):
the stream key, the closed flag of the safe observer, the channel the
producer opened (none until the open resolves), whether the open is in
flight, and what was delivered to the subscriber. -/
structure Sub where
  key : String
  closed : Bool
  gazeWs : Option Nat
  awaitingOpen : Bool
  errored : Option JsError
  completedFlag : Bool
  deriving DecidableEq, Repr

/-- Device state: the mutable record of createDevice plus the event log,
the state history (every assignment to connectionState, oldest first),
the channel table and the subscription records.  gazeOpenCalls counts
the createWebSocket calls made for gaze streams. -/
structure DevState where
  connectionState : ConnState
  stateHist : List ConnState
  reconnectAttempts : Nat
  websockets : List (String × Nat)
  streams : List (String × Nat)
  nextObs : Nat
  channels : List Bool
  subs : List Sub
  events : List Ev
  pending : Option ConnPending
  gazeOpenCalls : Nat
  deriving DecidableEq, Repr

/-- Connection options relevant to the modelled claims. -/
structure DevOptions where
  autoReconnect : Bool
  maxReconnectAttempts : Nat
  deriving DecidableEq, Repr

/-- The state of a fresh device. -/
def initDev : DevState :=
  ⟨.disconnected, [.disconnected], 0, [], [], 0, [], [], [], none, 0⟩

/-- Assignment to state.connectionState (also recorded in the history). -/
def setCS (s : DevState) (c : ConnState) : DevState :=
  { s with connectionState := c, stateHist := s.stateHist ++ [c] }

/-- emitter.emit. -/
def emit (s : DevState) (e : Ev) : DevState :=
  { s with events := s.events ++ [e] }

/-- Map.set on the websocket registry. -/
def mapSet (m : List (String × Nat)) (k : String) (v : Nat) : List (String × Nat) :=
  if (m.lookup k).isSome then
    m.map (fun p => if p.1 = k then (k, v) else p)
  else m ++ [(k, v)]

/-- ws.close() on each registered channel that is in the open ready-state
(already-closed channels are skipped). -/
def closeAll (channels : List Bool) : List Nat → List Bool
  | [] => channels
  | id :: rest =>
    closeAll (if channels.getD id false then channels.set id false else channels) rest

/-- connect() up to its first await: a no-op when already connected,
otherwise the transition to Connecting, the connecting event, and the
suspension on the status HTTP request. -/
def connectEntry (s : DevState) : DevState :=
  if s.connectionState = .connected then s
  else { emit (setCS s .connecting) .connecting with pending := some .awaitingHttp }

/-- handleReconnect() up to its first await: either the terminal ceiling
branch (Error state, one max-attempts error, stop) or the transition to
Reconnecting with the incremented attempt counter and the suspension in
the reconnect timer. -/
def handleReconnectEntry (opts : DevOptions) (s : DevState) : DevState :=
  if opts.maxReconnectAttempts ≤ s.reconnectAttempts then
    { emit (setCS s .error) (.errorEv maxReconnectError) with pending := none }
  else
    let a := s.reconnectAttempts + 1
    { emit (setCS { s with reconnectAttempts := a } .reconnecting) (.reconnecting a) with
        pending := some .sleeping }

/-- The catch block of connect(): Error state, error event, and the
background reconnect when autoReconnect is enabled (the re-thrown error
is swallowed by the reconnect loop caller). -/
def connectCatch (opts : DevOptions) (s : DevState) (e : JsError) : DevState :=
  let s := { emit (setCS s .error) (.errorEv e) with pending := none }
  if opts.autoReconnect then handleReconnectEntry opts s else s

/-- Resumption of connect() when the status channel open resolves: the
channel is registered, the Connected transition committed, the attempt
counter reset and the connected event emitted. -/
def commitConnected (s : DevState) : DevState :=
  let id := s.channels.length
  let s := { s with channels := s.channels ++ [true], websockets := mapSet s.websockets "status" id }
  { emit (setCS { s with reconnectAttempts := 0 } .connected) .connected with pending := none }

/-- disconnect(): unconditionally Disconnected, close the channels of the
websocket registry that are open, clear the registry, invoke the stored
stream completion callbacks (which are no-op stubs) and clear the stream
registry, emit disconnected.  The pending lifecycle task is not touched
and the subscription records receive nothing. -/
def disconnectStep (s : DevState) : DevState :=
  let s := setCS s .disconnected
  let s := { s with channels := closeAll s.channels (s.websockets.map Prod.snd), websockets := [] }
  let s := { s with streams := [] }
  emit s .disconnected

/-- The status channel close handler: reconnect only when auto-reconnect
is enabled and the device was logically Connected. -/
def statusCloseStep (opts : DevOptions) (s : DevState) : DevState :=
  match s.websockets.lookup "status" with
  | none => s
  | some id =>
    if s.channels.getD id false then
      if opts.autoReconnect && s.connectionState = .connected then
        handleReconnectEntry opts { s with channels := s.channels.set id false }
      else { s with channels := s.channels.set id false }
    else s

/-- createGazeStream(config): the stream key is gaze_ followed by the
serialised configuration; a cached Observable for the key is returned,
otherwise a new Observable is created and cached.  Returns the
observable identity. -/
def createGazeStream (s : DevState) (config : String) : DevState × Nat :=
  let key := "gaze_" ++ config
  match s.streams.lookup key with
  | some obs => (s, obs)
  | none =>
    ({ s with streams := s.streams ++ [(key, s.nextObs)], nextObs := s.nextObs + 1 }, s.nextObs)

/-- Subscribing to the gaze stream: createGazeStream followed by one run
of the cold Observable producer.  When the device is not Connected the
subscriber immediately receives a terminal StreamError and no channel
open is attempted (and the producer returns no cleanup).  Otherwise
startStream() issues a gaze channel open (counted) and the subscription
awaits it.  Returns the subscription index. -/
def subscribeGaze (s : DevState) (config : String) : DevState × Nat :=
  let key := "gaze_" ++ config
  let s := (createGazeStream s config).1
  let i := s.subs.length
  if s.connectionState = .connected then
    ({ s with
        subs := s.subs ++ [⟨key, false, none, true, none, false⟩],
        gazeOpenCalls := s.gazeOpenCalls + 1 }, i)
  else
    ({ s with
        subs := s.subs ++
          [⟨key, true, none, false,
            some (streamError "Device not connected" "STREAM_START_FAILED"), false⟩] }, i)

/-- ws.close() on the gaze channel a producer stored, skipped when the
channel is absent or not in the open ready-state. -/
def closeGazeWs (s : DevState) (sub : Sub) : DevState :=
  match sub.gazeWs with
  | some c => if s.channels.getD c false then { s with channels := s.channels.set c false } else s
  | none => s

/-- The producer cleanup function: close the gaze channel of subscription
i when it is in the open ready-state, and delete the stream key from the
stream registry. -/
def runCleanup (s : DevState) (i : Nat) : DevState :=
  match s.subs.get? i with
  | none => s
  | some sub =>
    { closeGazeWs s sub with streams := s.streams.filter (fun p => p.1 != sub.key) }

/-- subscriber.error of the safe observer for a connected-path
subscription: terminal, then the cleanup runs. -/
def subErrorStep (s : DevState) (i : Nat) (e : JsError) : DevState :=
  match s.subs.get? i with
  | none => s
  | some sub =>
    if sub.closed then s
    else runCleanup { s with subs := s.subs.set i { sub with closed := true, errored := some e } } i

/-- subscription.unsubscribe(): mark closed and run the cleanup; a no-op
when the subscription is already closed. -/
def unsubscribeStep (s : DevState) (i : Nat) : DevState :=
  match s.subs.get? i with
  | none => s
  | some sub =>
    if sub.closed then s
    else runCleanup { s with subs := s.subs.set i { sub with closed := true } } i

/-- Resolution of the gaze channel open of subscription i: the channel is
allocated open and stored in the producer closure (handlers attached). -/
def gazeOpenOkStep (s : DevState) (i : Nat) : DevState :=
  match s.subs.get? i with
  | none => s
  | some sub =>
    if sub.awaitingOpen then
      { s with
          channels := s.channels ++ [true],
          subs := s.subs.set i { sub with gazeWs := some s.channels.length, awaitingOpen := false } }
    else s

/-- Rejection of the gaze channel open of subscription i: the subscriber
receives a terminal stream-start StreamError. -/
def gazeOpenFailStep (s : DevState) (i : Nat) : DevState :=
  match s.subs.get? i with
  | none => s
  | some sub =>
    if sub.awaitingOpen then
      subErrorStep { s with subs := s.subs.set i { sub with awaitingOpen := false } } i
        (streamError "Failed to start gaze stream" "STREAM_START_FAILED")
    else s

/-- Environment and user labels driving the device. -/
inductive Label where
  | userConnect
  | userDisconnect
  | httpOk
  | httpFail
  | wsOk
  | wsFail
  | timerFire
  | statusClose
  | subscribe (config : String)
  | unsub (i : Nat)
  | gazeOpenOk (i : Nat)
  | gazeOpenFail (i : Nat)
  deriving DecidableEq, Repr

/-- One scheduler step.  Completion labels apply only to the matching
suspension; labels that do not apply leave the state unchanged. -/
def step (opts : DevOptions) (s : DevState) : Label → DevState
  | .userConnect => if s.pending = none then connectEntry s else s
  | .userDisconnect => disconnectStep s
  | .httpOk =>
    if s.pending = some .awaitingHttp then { s with pending := some .awaitingWs } else s
  | .httpFail =>
    if s.pending = some .awaitingHttp then
      connectCatch opts s (apiError "Network error during API request")
    else s
  | .wsOk => if s.pending = some .awaitingWs then commitConnected s else s
  | .wsFail =>
    if s.pending = some .awaitingWs then
      connectCatch opts s (connectionError "WebSocket connection failed")
    else s
  | .timerFire =>
    if s.pending = some .sleeping then connectEntry { s with pending := none } else s
  | .statusClose => statusCloseStep opts s
  | .subscribe config => (subscribeGaze s config).1
  | .unsub i => unsubscribeStep s i
  | .gazeOpenOk i => gazeOpenOkStep s i
  | .gazeOpenFail i => gazeOpenFailStep s i

/-- Run a schedule of labels. -/
def runDev (opts : DevOptions) (s : DevState) : List Label → DevState
  | [] => s
  | l :: rest => runDev opts (step opts s l) rest

/-- The connection-state transition edges asserted by the specification:
Disconnected to Connecting, Connecting to Connected or Error, Connected
to Reconnecting, Reconnecting to Connected or Error, and any state to
Disconnected. -/
def claimedEdge : ConnState → ConnState → Bool
  | .disconnected, .connecting => true
  | .connecting, .connected => true
  | .connecting, .error => true
  | .connected, .reconnecting => true
  | .reconnecting, .connected => true
  | .reconnecting, .error => true
  | _, .disconnected => true
  | _, _ => false

/-- The transition edges the code actually exhibits: additionally every
reconnect attempt re-enters through Connecting (from Reconnecting or
from Error), a failed attempt re-enters Reconnecting from Error, and an
in-flight connect resumed after an interleaved disconnect commits from
Disconnected; with a zero attempt ceiling the close handler moves
Connected directly to Error. -/
def actualEdge (a b : ConnState) : Bool :=
  claimedEdge a b ||
  match a, b with
  | .reconnecting, .connecting => true
  | .error, .connecting => true
  | .error, .reconnecting => true
  | .disconnected, .connected => true
  | .disconnected, .error => true
  | .connected, .error => true
  | _, _ => false

/-- All adjacent pairs of the history are either equal (a reassignment of
the same value, not a transition) or an allowed edge. -/
def chainOK (r : ConnState → ConnState → Bool) : List ConnState → Bool
  | a :: b :: rest => (a == b || r a b) && chainOK r (b :: rest)
  | _ => true

/-- Count of reconnecting events in a log. -/
def countReconnecting (evs : List Ev) : Nat :=
  evs.countP (fun e => match e with | .reconnecting _ => true | _ => false)

/-- Count of emissions of the max-attempts error in a log. -/
def countMaxErr (evs : List Ev) : Nat :=
  evs.countP (fun e => e == .errorEv maxReconnectError)

/-- Count of connecting events in a log (one per connect attempt entering
its body). -/
def countConnecting (evs : List Ev) : Nat :=
  evs.countP (fun e => e == Ev.connecting)

/-- One round of the failing reconnect cascade: the timer fires, the
attempt runs, and its HTTP handshake fails. -/
def failRound (opts : DevOptions) (s : DevState) : DevState :=
  step opts (step opts s .timerFire) .httpFail

/-- Iterate failing reconnect rounds. -/
def iterFailRounds (opts : DevOptions) : Nat → DevState → DevState
  | 0, s => s
  | k + 1, s => iterFailRounds opts k (failRound opts s)

/-- Last entry of the state history (Disconnected for the empty one). -/
def lastState : List ConnState → ConnState
  | [] => .disconnected
  | [a] => a
  | _ :: b :: rest => lastState (b :: rest)

/-- Scheduler invariant: the connectionState field is the last entry of
the history, all transitions so far are actual edges, and the pending
suspension constrains the states it can be observed in (an HTTP or
channel-open suspension exists only while Connecting, or Disconnected
after an interleaved disconnect; a reconnect sleep only while
Reconnecting, or Disconnected after an interleaved disconnect). -/
def DevInv (s : DevState) : Prop :=
  lastState s.stateHist = s.connectionState ∧
  chainOK actualEdge s.stateHist = true ∧
  ((s.pending = some .awaitingHttp ∨ s.pending = some .awaitingWs) →
    (s.connectionState = .connecting ∨ s.connectionState = .disconnected)) ∧
  (s.pending = some .sleeping →
    (s.connectionState = .reconnecting ∨ s.connectionState = .disconnected))

/-- Invariant of the failing reconnect cascade while attempt a is
scheduled: Reconnecting and sleeping in the timer, a attempts counted
and announced, a connect attempts entered so far, no terminal error yet,
the status channel allocated but closed. -/
def cascadeP (a : Nat) (s : DevState) : Prop :=
  s.connectionState = .reconnecting ∧ s.pending = some .sleeping ∧
  s.reconnectAttempts = a ∧ s.websockets = [("status", 0)] ∧ s.channels = [false] ∧
  countMaxErr s.events = 0 ∧ countReconnecting s.events = a ∧ countConnecting s.events = a

/-- Terminal configuration of the failing reconnect cascade with ceiling
m: Error state, no suspension, exactly one max-attempts error, m
announced attempts, and the m cascade connect attempts plus the original
connect. -/
def cascadeQ (m : Nat) (s : DevState) : Prop :=
  s.connectionState = .error ∧ s.pending = none ∧ s.reconnectAttempts = m ∧
  s.websockets = [("status", 0)] ∧ s.channels = [false] ∧
  countMaxErr s.events = 1 ∧ countReconnecting s.events = m ∧
  countConnecting s.events = m + 1

/-! ## Lemmas about the address parser -/

theorem digit_not_ws (c : Char) (h : c.isDigit = true) : isJsWhitespace c = false := by
  have h32 : c ≠ ' ' := by rintro rfl; exact absurd h (by decide)
  have h9 : c ≠ '\t' := by rintro rfl; exact absurd h (by decide)
  have h10 : c ≠ '\n' := by rintro rfl; exact absurd h (by decide)
  have h13 : c ≠ '\r' := by rintro rfl; exact absurd h (by decide)
  simp [isJsWhitespace, h32, h9, h10, h13]

theorem digit_ne_minus (c : Char) (h : c.isDigit = true) : c ≠ '-' := by
  rintro rfl; exact absurd h (by decide)

theorem digit_ne_plus (c : Char) (h : c.isDigit = true) : c ≠ '+' := by
  rintro rfl; exact absurd h (by decide)

theorem takeWhile_all_eq_self (p : Char → Bool) :
    ∀ l : List Char, l.all p = true → l.takeWhile p = l := by
  intro l
  induction l with
  | nil => intro _; rfl
  | cons c rest ih =>
    intro h
    simp only [List.all_cons, Bool.and_eq_true] at h
    simp [List.takeWhile, h.1, ih h.2]

theorem jsParseInt10_digits (l : List Char) (hne : l ≠ []) (hd : l.all Char.isDigit = true) :
    jsParseInt10 l = some (digitsVal l : Int) := by
  obtain ⟨c, rest, rfl⟩ : ∃ c rest, l = c :: rest := by
    cases l with
    | nil => exact absurd rfl hne
    | cons c rest => exact ⟨c, rest, rfl⟩
  simp only [List.all_cons, Bool.and_eq_true] at hd
  have hws := digit_not_ws c hd.1
  have hm := digit_ne_minus c hd.1
  have hp := digit_ne_plus c hd.1
  have hall : (c :: rest).all Char.isDigit = true := by simp [hd.1, hd.2]
  unfold jsParseInt10
  simp only [List.dropWhile, hws]
  simp [hm, hp, takeWhile_all_eq_self Char.isDigit (c :: rest) hall, hd.1]

theorem jsSplit_no_sep (sep : Char) : ∀ l : List Char, sep ∉ l → jsSplit sep l = [l] := by
  intro l
  induction l with
  | nil => intro _; rfl
  | cons c rest ih =>
    intro h
    have hc : c ≠ sep := fun hcs => h (hcs ▸ List.mem_cons_self c rest)
    have hrest : sep ∉ rest := fun hm => h (List.mem_cons_of_mem c hm)
    simp [jsSplit, ih hrest, fun hq => hc hq]

theorem jsSplit_pair (sep : Char) (h p : List Char) (hh : sep ∉ h) (hp : sep ∉ p) :
    jsSplit sep (h ++ sep :: p) = [h, p] := by
  induction h with
  | nil => simp [jsSplit, jsSplit_no_sep sep p hp]
  | cons c rest ih =>
    have hc : c ≠ sep := fun hcs => hh (hcs ▸ List.mem_cons_self c rest)
    have hrest : sep ∉ rest := fun hm => hh (List.mem_cons_of_mem c hm)
    simp only [List.cons_append, jsSplit, List.append_eq]
    rw [ih hrest]
    simp [fun hq => hc hq]

/-! ## Claim theorems: C8 (parseAddress) -/

/-- C8 counterexample: the port segment 80abc is not numeric, yet
parseAddress succeeds with port 80, because parseInt(s, 10) reads the
longest digit prefix and ignores the trailing junk.  The claim that
every non-numeric port segment is rejected is therefore false. -/
theorem claim_C8_counterexample :
    parseAddress ("localhost:80abc".data) = .ok ("localhost".data, 80) ∧
    ("80abc".data.all Char.isDigit) = false := by
  exact ⟨by rfl, by decide⟩

/-- C8 amended: host-only addresses parse with the default port 8080, and
a host:port address parses exactly according to parseInt(s, 10) digit
prefix semantics: it succeeds with the parsed value when that value is
within 1..65535 (in particular for fully numeric port segments), and
fails with a descriptive error when the port segment has no parseable
integer prefix or its value is out of range. -/
theorem claim_C8_amended :
    (∀ host : List Char, host ≠ [] → ':' ∉ host →
      parseAddress host = .ok (jsTrim host, 8080)) ∧
    (∀ host port : List Char, ∀ v : Int, ':' ∉ host → ':' ∉ port →
      jsParseInt10 port = some v → 1 ≤ v → v ≤ 65535 →
      parseAddress (host ++ ':' :: port) = .ok (jsTrim host, v)) ∧
    (∀ host port : List Char, ':' ∉ host → ':' ∉ port → port ≠ [] →
      port.all Char.isDigit = true → 1 ≤ digitsVal port → digitsVal port ≤ 65535 →
      parseAddress (host ++ ':' :: port) = .ok (jsTrim host, (digitsVal port : Int))) ∧
    (∀ host port : List Char, ':' ∉ host → ':' ∉ port →
      jsParseInt10 port = none →
      parseAddress (host ++ ':' :: port) = .error ("Invalid port number: " ++ String.mk port)) ∧
    (∀ host port : List Char, ∀ v : Int, ':' ∉ host → ':' ∉ port →
      jsParseInt10 port = some v → (v < 1 ∨ 65535 < v) →
      parseAddress (host ++ ':' :: port) = .error ("Invalid port number: " ++ String.mk port)) := by
  have hne : ∀ (host port : List Char), host ++ ':' :: port ≠ [] := by
    intro host port h
    cases host <;> simp at h
  refine ⟨?_, ?_, ?_, ?_, ?_⟩
  · intro host h1 h2
    unfold parseAddress
    rw [if_neg (by simpa [List.isEmpty_iff] using h1)]
    rw [jsSplit_no_sep ':' host h2]
  · intro host port v hh hp hv h1 h2
    unfold parseAddress
    rw [if_neg (by simpa [List.isEmpty_iff] using hne host port)]
    rw [jsSplit_pair ':' host port hh hp]
    simp only [hv]
    rw [if_neg (by simp only [Bool.or_eq_true, decide_eq_true_eq]; omega)]
  · intro host port hh hp hpne hdig h1 h2
    unfold parseAddress
    rw [if_neg (by simpa [List.isEmpty_iff] using hne host port)]
    rw [jsSplit_pair ':' host port hh hp]
    simp only [jsParseInt10_digits port hpne hdig]
    rw [if_neg (by simp only [Bool.or_eq_true, decide_eq_true_eq]; omega)]
  · intro host port hh hp hv
    unfold parseAddress
    rw [if_neg (by simpa [List.isEmpty_iff] using hne host port)]
    rw [jsSplit_pair ':' host port hh hp]
    simp only [hv]
  · intro host port v hh hp hv hrange
    unfold parseAddress
    rw [if_neg (by simpa [List.isEmpty_iff] using hne host port)]
    rw [jsSplit_pair ':' host port hh hp]
    simp only [hv]
    rw [if_pos (by simp only [Bool.or_eq_true, decide_eq_true_eq]; omega)]

/-- C8 witness: the amended theorem applied to the concrete addresses
192.168.1.100:9090 and host:0. -/
theorem claim_C8_witness :
    (("192.168.1.100".data ≠ []) ∧ (':' ∉ "192.168.1.100".data) ∧
      (':' ∉ "9090".data) ∧ jsParseInt10 "9090".data = some 9090 ∧
      parseAddress ("192.168.1.100".data ++ ':' :: "9090".data) =
        .ok (jsTrim "192.168.1.100".data, 9090)) ∧
    (jsParseInt10 "0".data = some 0 ∧
      parseAddress ("host".data ++ ':' :: "0".data) =
        .error ("Invalid port number: " ++ String.mk "0".data)) := by
  refine ⟨⟨by decide, by decide, by decide, by decide, ?_⟩, ⟨by decide, ?_⟩⟩
  · exact claim_C8_amended.2.1 _ _ 9090 (by decide) (by decide) (by decide)
      (by decide) (by decide)
  · exact claim_C8_amended.2.2.2.2 _ _ 0 (by decide) (by decide) (by decide) (Or.inl (by decide))

/-! ## Lemmas about the circular buffer -/

theorem getD_set_self (l : List α) (i : Nat) (a d : α) (h : i < l.length) :
    (l.set i a).getD i d = a := by
  simp [List.getD_eq_getElem?_getD, List.getElem?_set_self, h]

theorem getD_set_ne (l : List α) (i j : Nat) (a d : α) (h : i ≠ j) :
    (l.set i a).getD j d = l.getD j d := by
  simp [List.getD_eq_getElem?_getD, List.getElem?_set_ne, h]

theorem mod_shift_inj (N t i j : Nat) (hi : i < N) (hj : j < N)
    (h : (t + i) % N = (t + j) % N) : i = j := by
  have h2 : i ≡ j [MOD N] := Nat.ModEq.add_left_cancel rfl h
  have h3 : i % N = j % N := h2
  rwa [Nat.mod_eq_of_lt hi, Nat.mod_eq_of_lt hj] at h3

theorem range_map_lookup : ∀ l : List α, (List.range l.length).map (fun i => l[i]?) = l.map some := by
  intro l
  induction l with
  | nil => rfl
  | cons a t ih =>
    simp only [List.length_cons, List.range_succ_eq_map, List.map_cons, List.map_map,
      List.getElem?_cons_zero, List.map_cons]
    refine congrArg (some a :: ·) ?_
    calc (List.range t.length).map ((fun i => (a :: t)[i]?) ∘ Nat.succ)
        = (List.range t.length).map (fun i => t[i]?) := by
          refine List.map_congr_left ?_
          intro i _
          simp [Function.comp, List.getElem?_cons_succ]
      _ = t.map some := ih

theorem push_size (cb : CircularBuffer α) (x : α) : (cb.push x).size = cb.size := by
  unfold CircularBuffer.push
  by_cases h : cb.count < cb.size <;> simp [h]

theorem push_count_le (cb : CircularBuffer α) (x : α) (h : cb.count ≤ cb.size) :
    (cb.push x).count ≤ (cb.push x).size := by
  unfold CircularBuffer.push
  by_cases hlt : cb.count < cb.size <;> simp [hlt] <;> omega

theorem runBufOps_count_le :
    ∀ (ops : List (BufOp α)) (cb : CircularBuffer α), cb.count ≤ cb.size →
      (runBufOps cb ops).count ≤ (runBufOps cb ops).size := by
  intro ops
  induction ops with
  | nil => intro cb h; exact h
  | cons op rest ih =>
    intro cb h
    cases op with
    | push x =>
      have h2 := push_count_le cb x h
      rw [push_size] at h2
      exact ih (cb.push x) (by rw [push_size]; exact (push_size cb x) ▸ h2)
    | clear => exact ih cb.clear (by simp [CircularBuffer.clear])
    | read => exact ih cb h

theorem BufInv_push (cb : CircularBuffer α) (l : List α) (x : α) (hsz : 0 < cb.size)
    (h : BufInv cb l) : BufInv (cb.push x) (jsQueuePush cb.size l x) := by
  obtain ⟨hc, hlen, ht, hh, hb, hslot⟩ := h
  unfold CircularBuffer.push jsQueuePush
  by_cases hfull : l.length < cb.size
  · rw [if_pos (by omega : cb.count < cb.size), if_pos hfull]
    refine ⟨by simp; omega, by simp; omega, ht, ?_, by simp [hb], ?_⟩
    · simp only
      rw [hh, Nat.mod_add_mod, hc, Nat.add_assoc]
    · intro i hi
      simp only [List.length_append, List.length_cons, List.length_nil] at hi
      by_cases hilen : i < l.length
      · have hne : cb.head ≠ (cb.tail + i) % cb.size := by
          rw [hh, hc]
          intro heq
          exact absurd (mod_shift_inj cb.size cb.tail l.length i (by omega) (by omega) heq)
            (by omega)
        simp only
        rw [getD_set_ne _ _ _ _ _ hne, hslot i hilen, List.getElem?_append]
        rw [if_pos hilen]
      · have hieq : i = l.length := by omega
        subst hieq
        simp only
        rw [hh, hc, getD_set_self _ _ _ _ (by rw [hb]; exact Nat.mod_lt _ hsz)]
        rw [List.getElem?_concat_length]
  · have hlN : l.length = cb.size := by omega
    rw [if_neg (by omega : ¬ cb.count < cb.size), if_neg hfull]
    obtain ⟨y, ys, rfl⟩ : ∃ y ys, l = y :: ys := by
      cases l with
      | nil => exact absurd hlN.symm (by simpa using Nat.ne_of_gt hsz)
      | cons y ys => exact ⟨y, ys, rfl⟩
    simp only [List.tail_cons]
    have hys : ys.length + 1 = cb.size := by simpa using hlN
    have hwrite : cb.head = cb.tail := by
      rw [hh, hc]
      simp only [List.length_cons]
      rw [hys, Nat.add_mod_right, Nat.mod_eq_of_lt ht]
    refine ⟨by simp; omega, by simp; omega, Nat.mod_lt _ hsz, ?_, by simp [hb], ?_⟩
    · simp only
      rw [hwrite, Nat.mod_add_mod, hc]
      simp only [List.length_cons]
      rw [hys]
      rw [(by omega : cb.tail + 1 + cb.size = (cb.tail + 1) + cb.size), Nat.add_mod_right]
    · intro i hi
      simp only [List.length_append, List.length_cons, List.length_nil] at hi
      simp only
      rw [Nat.mod_add_mod, (by omega : cb.tail + 1 + i = cb.tail + (1 + i))]
      by_cases hi2 : i < ys.length
      · have hne : cb.head ≠ (cb.tail + (1 + i)) % cb.size := by
          rw [hwrite]
          intro heq
          have heq2 : (cb.tail + 0) % cb.size = (cb.tail + (1 + i)) % cb.size := by
            rw [Nat.add_zero, Nat.mod_eq_of_lt ht]; exact heq
          exact absurd (mod_shift_inj cb.size cb.tail 0 (1 + i) hsz (by omega) heq2)
            (by omega)
        rw [getD_set_ne _ _ _ _ _ hne]
        rw [(by omega : cb.tail + (1 + i) = cb.tail + (i + 1))]
        rw [hslot (i + 1) (by simp; omega)]
        rw [List.getElem?_cons_succ, List.getElem?_append]
        rw [if_pos hi2]
      · have hieq : i = ys.length := by omega
        subst hieq
        rw [(by omega : 1 + ys.length = ys.length + 1), (by rw [hys] : cb.tail + (ys.length + 1) = cb.tail + cb.size)]
        rw [Nat.add_mod_right, Nat.mod_eq_of_lt ht, ← hwrite]
        rw [getD_set_self _ _ _ _ (by rw [hwrite, hb]; exact ht)]
        rw [List.getElem?_concat_length]

theorem runBufOps_size :
    ∀ (ops : List (BufOp α)) (cb : CircularBuffer α), (runBufOps cb ops).size = cb.size := by
  intro ops
  induction ops with
  | nil => intro cb; rfl
  | cons op rest ih =>
    intro cb
    cases op with
    | push x => rw [runBufOps, ih, push_size]
    | clear => rw [runBufOps, ih]; rfl
    | read => rw [runBufOps, ih]

theorem BufInv_create (α : Type) (n : Nat) (hn : 0 < n) :
    BufInv (createCircularBuffer α n) [] := by
  refine ⟨rfl, by simp, hn, by simp [createCircularBuffer], by simp [createCircularBuffer], ?_⟩
  intro i hi
  simp at hi

theorem BufInv_pushAll :
    ∀ (L : List α) (cb : CircularBuffer α) (l : List α), 0 < cb.size → BufInv cb l →
      BufInv (pushAll cb L) (L.foldl (jsQueuePush cb.size) l) := by
  intro L
  induction L with
  | nil => intro cb l _ h; exact h
  | cons x rest ih =>
    intro cb l hsz h
    have h2 := BufInv_push cb l x hsz h
    have h3 := ih (cb.push x) (jsQueuePush cb.size l x) (by rw [push_size]; exact hsz) h2
    rw [push_size] at h3
    exact h3

theorem jsQueue_foldl (n : Nat) (hn : 0 < n) :
    ∀ (L l : List α), l.length ≤ n →
      L.foldl (jsQueuePush n) l = (l ++ L).drop (l.length + L.length - n) := by
  intro L
  induction L with
  | nil =>
    intro l hl
    simp only [List.foldl_nil, List.append_nil, List.length_nil, Nat.add_zero]
    rw [(by omega : l.length - n = 0), List.drop_zero]
  | cons x rest ih =>
    intro l hl
    rw [List.foldl_cons]
    by_cases hfull : l.length < n
    · rw [(by unfold jsQueuePush; rw [if_pos hfull] : jsQueuePush n l x = l ++ [x])]
      rw [ih (l ++ [x]) (by simp; omega)]
      simp only [List.append_assoc, List.singleton_append, List.length_append,
        List.length_cons, List.length_nil]
      rw [(by omega : l.length + 1 + rest.length - n = l.length + (rest.length + 1) - n)]
    · obtain ⟨y, ys, rfl⟩ : ∃ y ys, l = y :: ys := by
        cases l with
        | nil => exact absurd hn (by simpa using hfull)
        | cons y ys => exact ⟨y, ys, rfl⟩
      have hlen : ys.length + 1 = n := by
        simp only [List.length_cons] at hl hfull
        omega
      rw [(by unfold jsQueuePush; rw [if_neg hfull] : jsQueuePush n (y :: ys) x = (y :: ys).tail ++ [x])]
      simp only [List.tail_cons]
      rw [ih (ys ++ [x]) (by simp; omega)]
      simp only [List.append_assoc, List.singleton_append, List.length_append,
        List.length_cons, List.length_nil]
      rw [(by omega : ys.length + 1 + rest.length - n = rest.length),
        (by omega : ys.length + 1 + (rest.length + 1) - n = rest.length + 1)]
      simp only [List.cons_append]
      rw [List.drop_succ_cons]

theorem BufInv_getAll (cb : CircularBuffer α) (l : List α) (h : BufInv cb l) :
    cb.getAll = l.map some := by
  obtain ⟨hc, _, _, _, _, hslot⟩ := h
  unfold CircularBuffer.getAll
  rw [hc]
  rw [List.map_congr_left (fun i hi => hslot i (List.mem_range.mp hi))]
  exact range_map_lookup l

/-! ## Claim theorems: C9 (circular buffer) -/

/-- C9: for every positive capacity N, over every sequence of push, clear
and read operations the buffer length never exceeds N; and pushing
N + k items (k at least 0) into a fresh buffer leaves exactly the last N
pushed items, returned by getAll in insertion order. -/
theorem claim_C9 {α : Type} (N : Nat) (hN : 0 < N) :
    (∀ ops : List (BufOp α), (runBufOps (createCircularBuffer α N) ops).length ≤ N) ∧
    (∀ L : List α, N ≤ L.length →
      (pushAll (createCircularBuffer α N) L).getAll = (L.drop (L.length - N)).map some) := by
  constructor
  · intro ops
    have h := runBufOps_count_le ops (createCircularBuffer α N) (by simp [createCircularBuffer])
    rw [runBufOps_size] at h
    exact h
  · intro L hL
    have hinv := BufInv_pushAll L (createCircularBuffer α N) [] hN (BufInv_create α N hN)
    have hgetAll := BufInv_getAll _ _ hinv
    rw [hgetAll]
    have hfold := jsQueue_foldl N hN L [] (by simp)
    simp only [List.nil_append, List.length_nil, Nat.zero_add] at hfold
    have hsz : (createCircularBuffer α N).size = N := rfl
    rw [hsz] at hinv ⊢
    rw [show (L.foldl (jsQueuePush N) [] : List α) = L.drop (L.length - N) from hfold]

/-- C9 witness: the claim theorem applied at capacity 3, a concrete
operation sequence and the concrete push sequence 1..5. -/
theorem claim_C9_witness :
    (0 < 3) ∧
    (runBufOps (createCircularBuffer Nat 3)
      [.push 1, .push 2, .read, .push 3, .push 4, .clear, .push 5]).length ≤ 3 ∧
    (3 ≤ ([1, 2, 3, 4, 5] : List Nat).length) ∧
    (pushAll (createCircularBuffer Nat 3) [1, 2, 3, 4, 5]).getAll =
      ([3, 4, 5] : List Nat).map some := by
  refine ⟨by decide, (claim_C9 3 (by decide)).1 _, by decide, ?_⟩
  have h := (claim_C9 (α := Nat) 3 (by decide)).2 [1, 2, 3, 4, 5] (by decide)
  simpa using h

/-! ## Claim theorems: C10 (receiveGazeDatum) -/

/-- C10 counterexample: on an empty, never-fed buffer the call rejects at
timeoutMs, but the rejection value is a plain JS Error carrying no
machine code and the generic Error name: it is not a Timeout-kind error
of the library taxonomy (every taxonomy error carries a code and a
specific name). -/
theorem claim_C10_counterexample :
    rgdRun ([] : List Nat) (fun _ => []) 50 = .rejected 50 rgdTimeoutError ∧
    rgdTimeoutError.code = none ∧ rgdTimeoutError.name = "Error" := by
  refine ⟨?_, rfl, rfl⟩
  rfl

/-- C10 amended: with a non-empty buffer the call resolves immediately
with the oldest buffered sample and removes it; on an empty buffer that
is never fed it rejects exactly at timeoutMs (never earlier) with the
plain Error whose message is Timeout waiting for gaze data and which
carries no taxonomy kind or code. -/
theorem claim_C10_amended {α : Type} (b0 : List α) (feed : Nat → List α) (timeoutMs : Nat) :
    (∀ x rest, b0 = x :: rest → rgdRun b0 feed timeoutMs = .resolved 0 x rest) ∧
    (b0 = [] → (∀ t, feed t = []) → rgdRun b0 feed timeoutMs = .rejected timeoutMs rgdTimeoutError) := by
  constructor
  · rintro x rest rfl
    rfl
  · rintro rfl hfeed
    unfold rgdRun
    have hbuf : ∀ t, rgdBufAt ([] : List α) feed t = [] := by
      intro t
      unfold rgdBufAt
      simp only [List.nil_append]
      rw [List.flatten_eq_nil_iff.mpr]
      intro x hx
      obtain ⟨t2, _, rfl⟩ := List.mem_map.mp hx
      exact hfeed t2
    rw [List.find?_eq_none.mpr]
    intro t _
    simp [hbuf t]

/-- C10 witness: the amended theorem applied to a buffer holding 7 then 8
(resolution with the oldest, leaving 8) and to the empty never-fed
buffer with a 1000 ms timeout. -/
theorem claim_C10_witness :
    (([7, 8] : List Nat) = 7 :: [8] ∧
      rgdRun ([7, 8] : List Nat) (fun _ => []) 1000 = .resolved 0 7 [8]) ∧
    (rgdRun ([] : List Nat) (fun _ => []) 1000 = .rejected 1000 rgdTimeoutError) := by
  refine ⟨⟨rfl, ?_⟩, ?_⟩
  · exact (claim_C10_amended [7, 8] (fun _ => []) 1000).1 7 [8] rfl
  · exact (claim_C10_amended [] (fun _ => []) 1000).2 rfl (fun _ => rfl)

/-! ## Lemmas about the device machine -/

theorem createGazeStream_fields (s : DevState) (c : String) :
    ((createGazeStream s c).1).connectionState = s.connectionState ∧
    ((createGazeStream s c).1).subs = s.subs ∧
    ((createGazeStream s c).1).channels = s.channels ∧
    ((createGazeStream s c).1).gazeOpenCalls = s.gazeOpenCalls := by
  unfold createGazeStream
  cases h : s.streams.lookup ("gaze_" ++ c) <;> simp [h]

/-! ## Claim theorems: C6 (connect while Connected is a no-op) -/

/-- C6: calling connect() while the Connection is already Connected
returns the state unchanged: no transition, no event, no suspension on
an HTTP request, no channel open. -/
theorem claim_C6 (opts : DevOptions) (s : DevState) (h : s.connectionState = .connected) :
    step opts s .userConnect = s := by
  simp only [step, connectEntry, h]
  split <;> simp

/-- C6 witness: the no-op applied to the connected state reached by a
successful connect from the fresh device. -/
theorem claim_C6_witness :
    (runDev ⟨true, 10⟩ initDev [.userConnect, .httpOk, .wsOk]).connectionState = .connected ∧
    step ⟨true, 10⟩ (runDev ⟨true, 10⟩ initDev [.userConnect, .httpOk, .wsOk]) .userConnect =
      runDev ⟨true, 10⟩ initDev [.userConnect, .httpOk, .wsOk] :=
  ⟨by decide, claim_C6 ⟨true, 10⟩ _ (by decide)⟩

/-! ## Claim theorems: C7 (subscribe while not Connected) -/

/-- C7: subscribing to the gaze stream while the Connection is not
Connected delivers an immediate terminal StreamError (Device not
connected, code STREAM_START_FAILED) to that subscriber, opens no
channel and counts no channel-open call. -/
theorem claim_C7 (s : DevState) (config : String) (h : s.connectionState ≠ .connected) :
    ((subscribeGaze s config).1).gazeOpenCalls = s.gazeOpenCalls ∧
    ((subscribeGaze s config).1).channels = s.channels ∧
    ((subscribeGaze s config).1).subs[(subscribeGaze s config).2]? =
      some ⟨"gaze_" ++ config, true, none, false,
        some (streamError "Device not connected" "STREAM_START_FAILED"), false⟩ := by
  obtain ⟨h1, h2, h3, h4⟩ := createGazeStream_fields s config
  unfold subscribeGaze
  simp only [h1, h2, h3, h4]
  rw [if_neg h]
  exact ⟨rfl, rfl, List.getElem?_concat_length _ _⟩

/-- C7 witness: subscribing on the fresh (Disconnected) device. -/
theorem claim_C7_witness :
    (initDev.connectionState ≠ ConnState.connected) ∧
    ((subscribeGaze initDev "cfg").1).gazeOpenCalls = initDev.gazeOpenCalls ∧
    ((subscribeGaze initDev "cfg").1).channels = initDev.channels ∧
    ((subscribeGaze initDev "cfg").1).subs[(subscribeGaze initDev "cfg").2]? =
      some ⟨"gaze_" ++ "cfg", true, none, false,
        some (streamError "Device not connected" "STREAM_START_FAILED"), false⟩ :=
  ⟨by decide, claim_C7 initDev "cfg" (by decide)⟩

/-! ## Claim theorems: C1 (stream multiplexing) -/

/-- C1 counterexample: two subscriptions with identical configuration on
a connected device perform two gaze channel-open calls, not one: the
cached Observable is cold, and every subscribe runs the producer, which
opens its own channel.  The single stream-key entry shows the Observable
itself was shared. -/
theorem claim_C1_counterexample :
    (runDev ⟨true, 10⟩ initDev
      [.userConnect, .httpOk, .wsOk, .subscribe "cfg", .subscribe "cfg"]).gazeOpenCalls = 2 ∧
    (runDev ⟨true, 10⟩ initDev
      [.userConnect, .httpOk, .wsOk, .subscribe "cfg", .subscribe "cfg"]).streams.length = 1 ∧
    (2 : Nat) ≠ 1 := by
  refine ⟨by decide, by decide, by decide⟩

/-! ## Claim theorems: C2 (disconnect during reconnect wait) -/

/-- C2 counterexample: from the connected device, a status channel close
starts a reconnect wait; disconnect() during that wait does not cancel
the timer: the schedule disconnect, timer, successful handshake emits
connecting and connected after the disconnected event, and commits the
Connected state. -/
theorem claim_C2_counterexample :
    (runDev ⟨true, 10⟩ initDev
      [.userConnect, .httpOk, .wsOk, .statusClose, .userDisconnect,
        .timerFire, .httpOk, .wsOk]).events =
      [.connecting, .connected, .reconnecting 1, .disconnected, .connecting, .connected] ∧
    (runDev ⟨true, 10⟩ initDev
      [.userConnect, .httpOk, .wsOk, .statusClose, .userDisconnect,
        .timerFire, .httpOk, .wsOk]).connectionState = .connected := by
  refine ⟨by decide, by decide⟩

/-! ## Claim theorems: C4 (disconnect behaviour) -/

/-- C4 counterexample: after a connected device has one live gaze
subscription with an open gaze channel, disconnect() leaves the gaze
channel (index 1) open, because only the channels of the websocket
registry (the status channel, index 0) are closed, and the subscriber
receives neither completion nor error, because the registered stream
completion callbacks are no-op stubs. -/
theorem claim_C4_counterexample :
    (runDev ⟨true, 10⟩ initDev
      [.userConnect, .httpOk, .wsOk, .subscribe "cfg", .gazeOpenOk 0, .userDisconnect]).connectionState
        = .disconnected ∧
    (runDev ⟨true, 10⟩ initDev
      [.userConnect, .httpOk, .wsOk, .subscribe "cfg", .gazeOpenOk 0, .userDisconnect]).channels
        = [false, true] ∧
    (runDev ⟨true, 10⟩ initDev
      [.userConnect, .httpOk, .wsOk, .subscribe "cfg", .gazeOpenOk 0, .userDisconnect]).subs
        = [⟨"gaze_" ++ "cfg", false, some 1, false, none, false⟩] := by
  refine ⟨by decide, by decide, by decide⟩

/-! ## Claim theorems: C5 (transition edges) -/

/-- C5 counterexample: the reachable schedule connect, handshake,
channel close, reconnect timer produces the history ending with a
Reconnecting to Connecting transition, which is not among the edges the
claim lists (a reconnect attempt re-enters connect instead of moving
directly to Connected). -/
theorem claim_C5_counterexample :
    (runDev ⟨true, 10⟩ initDev
      [.userConnect, .httpOk, .wsOk, .statusClose, .timerFire]).stateHist =
      [.disconnected, .connecting, .connected, .reconnecting, .connecting] ∧
    chainOK claimedEdge
      (runDev ⟨true, 10⟩ initDev
        [.userConnect, .httpOk, .wsOk, .statusClose, .timerFire]).stateHist = false := by
  refine ⟨by decide, by decide⟩

/-- C2 amended: disconnect() during a pending reconnect wait does not
cancel the wait.  From any state sleeping in the reconnect timer, the
schedule disconnect, timer expiry, successful handshake leaves the timer
to fire, re-enters connect() from the Disconnected state (connect only
refuses when already Connected), emits connecting and then connected
after the disconnected event, resets the attempt counter and commits the
Connected transition. -/
theorem claim_C2_amended (opts : DevOptions) (s : DevState)
    (hp : s.pending = some .sleeping) :
    ((runDev opts s [.userDisconnect, .timerFire, .httpOk, .wsOk]).connectionState
      = .connected) ∧
    ((runDev opts s [.userDisconnect, .timerFire, .httpOk, .wsOk]).events =
      s.events ++ [.disconnected, .connecting, .connected]) ∧
    ((runDev opts s [.userDisconnect, .timerFire, .httpOk, .wsOk]).stateHist =
      s.stateHist ++ [.disconnected, .connecting, .connected]) ∧
    ((runDev opts s [.userDisconnect, .timerFire, .httpOk, .wsOk]).reconnectAttempts = 0) := by
  simp [runDev, step, disconnectStep, setCS, emit, connectEntry, commitConnected, mapSet, hp]

/-- C2 witness: the amended theorem applied to the reconnect-waiting
state reached from the fresh device by a connect, handshake and status
channel close. -/
theorem claim_C2_witness :
    ((runDev ⟨true, 10⟩ initDev [.userConnect, .httpOk, .wsOk, .statusClose]).pending
      = some .sleeping) ∧
    ((runDev ⟨true, 10⟩
        (runDev ⟨true, 10⟩ initDev [.userConnect, .httpOk, .wsOk, .statusClose])
        [.userDisconnect, .timerFire, .httpOk, .wsOk]).connectionState = .connected) ∧
    ((runDev ⟨true, 10⟩
        (runDev ⟨true, 10⟩ initDev [.userConnect, .httpOk, .wsOk, .statusClose])
        [.userDisconnect, .timerFire, .httpOk, .wsOk]).events =
      (runDev ⟨true, 10⟩ initDev [.userConnect, .httpOk, .wsOk, .statusClose]).events ++
        [.disconnected, .connecting, .connected]) := by
  have h := claim_C2_amended ⟨true, 10⟩
    (runDev ⟨true, 10⟩ initDev [.userConnect, .httpOk, .wsOk, .statusClose]) (by decide)
  exact ⟨by decide, h.1, h.2.1⟩

/-! ## Lemmas about closeAll -/

theorem getD_true_lt (l : List Bool) (i : Nat) (h : l.getD i false = true) : i < l.length := by
  by_contra hge
  rw [List.getD_eq_default _ _ (by omega)] at h
  exact Bool.false_ne_true h

theorem closeAll_getD_false :
    ∀ (ids : List Nat) (ch : List Bool) (i : Nat), ch.getD i false = false →
      (closeAll ch ids).getD i false = false := by
  intro ids
  induction ids with
  | nil => intro ch i h; exact h
  | cons j rest ih =>
    intro ch i h
    unfold closeAll
    by_cases hj : ch.getD j false = true
    · rw [if_pos hj]
      refine ih _ i ?_
      by_cases hij : j = i
      · subst hij
        rw [getD_set_self _ _ _ _ (getD_true_lt ch j hj)]
      · rw [getD_set_ne _ _ _ _ _ hij, h]
    · rw [if_neg hj]
      exact ih ch i h

theorem closeAll_getD_not_mem :
    ∀ (ids : List Nat) (ch : List Bool) (i : Nat), i ∉ ids →
      (closeAll ch ids).getD i false = ch.getD i false := by
  intro ids
  induction ids with
  | nil => intro ch i _; rfl
  | cons j rest ih =>
    intro ch i h
    have hne : j ≠ i := fun hji => h (hji ▸ List.mem_cons_self j rest)
    have hrest : i ∉ rest := fun hm => h (List.mem_cons_of_mem j hm)
    unfold closeAll
    by_cases hj : ch.getD j false = true
    · rw [if_pos hj, ih _ i hrest, getD_set_ne _ _ _ _ _ hne]
    · rw [if_neg hj, ih ch i hrest]

theorem closeAll_getD_mem :
    ∀ (ids : List Nat) (ch : List Bool) (i : Nat), i ∈ ids →
      (closeAll ch ids).getD i false = false := by
  intro ids
  induction ids with
  | nil => intro ch i h; exact absurd h (List.not_mem_nil i)
  | cons j rest ih =>
    intro ch i h
    by_cases hrest : i ∈ rest
    · unfold closeAll
      by_cases hj : ch.getD j false = true
      · rw [if_pos hj]; exact ih _ i hrest
      · rw [if_neg hj]; exact ih ch i hrest
    · have hij : i = j := by
        rcases List.mem_cons.mp h with h1 | h2
        · exact h1
        · exact absurd h2 hrest
      subst hij
      unfold closeAll
      by_cases hj : ch.getD i false = true
      · rw [if_pos hj]
        rw [closeAll_getD_not_mem rest _ i hrest]
        rw [getD_set_self _ _ _ _ (getD_true_lt ch i hj)]
      · rw [if_neg hj]
        rw [closeAll_getD_not_mem rest ch i hrest]
        exact Bool.eq_false_iff.mpr (fun ht => hj ht)

/-! ## Claim theorems: C4 amended -/

/-- C4 amended: disconnect(), from any state, transitions to
Disconnected, closes exactly the open channels of the websocket registry
(the control and status channels; already-closed ones and all channels
outside the registry, including the gaze stream channels, are left as
they are), clears the websocket and stream registries, emits
disconnected, leaves the subscription records untouched (no completion
and no error is delivered, the stored completion callbacks being no-op
stubs), does not cancel a pending lifecycle task, and is idempotent on
the state except for appending another disconnected event and history
entry. -/
theorem claim_C4_amended (s : DevState) :
    (disconnectStep s).connectionState = .disconnected ∧
    (disconnectStep s).websockets = [] ∧
    (disconnectStep s).streams = [] ∧
    (disconnectStep s).subs = s.subs ∧
    (disconnectStep s).pending = s.pending ∧
    (disconnectStep s).events = s.events ++ [.disconnected] ∧
    (disconnectStep s).stateHist = s.stateHist ++ [.disconnected] ∧
    (∀ id, id ∈ s.websockets.map Prod.snd →
      (disconnectStep s).channels.getD id false = false) ∧
    (∀ id, id ∉ s.websockets.map Prod.snd →
      (disconnectStep s).channels.getD id false = s.channels.getD id false) ∧
    disconnectStep (disconnectStep s) =
      { disconnectStep s with
          events := (disconnectStep s).events ++ [.disconnected],
          stateHist := (disconnectStep s).stateHist ++ [.disconnected] } := by
  refine ⟨rfl, rfl, rfl, rfl, rfl, rfl, rfl, ?_, ?_, ?_⟩
  · intro id hid
    exact closeAll_getD_mem _ _ id hid
  · intro id hid
    exact closeAll_getD_not_mem _ _ id hid
  · simp [disconnectStep, setCS, emit, closeAll]

/-- C4 witness: the amended theorem applied to the state with a live
gaze subscription reached from the fresh device; the registry holds the
status channel 0, which gets closed. -/
theorem claim_C4_witness :
    ((0 : Nat) ∈ (runDev ⟨true, 10⟩ initDev
      [.userConnect, .httpOk, .wsOk, .subscribe "cfg", .gazeOpenOk 0]).websockets.map Prod.snd) ∧
    (disconnectStep (runDev ⟨true, 10⟩ initDev
      [.userConnect, .httpOk, .wsOk, .subscribe "cfg", .gazeOpenOk 0])).channels.getD 0 false
        = false ∧
    (disconnectStep (runDev ⟨true, 10⟩ initDev
      [.userConnect, .httpOk, .wsOk, .subscribe "cfg", .gazeOpenOk 0])).connectionState
        = .disconnected := by
  refine ⟨by decide, ?_, (claim_C4_amended _).1⟩
  exact (claim_C4_amended _).2.2.2.2.2.2.2.1 0 (by decide)

/-- C1 amended: from any Connected state with the status channel open
and no existing gaze entry or subscription, two subscriptions with
identical configuration share the one cached Observable for the stream
key, but each subscription opens its own underlying channel: two
channel-open calls are made and two gaze channels (indices 1 and 2)
exist.  Unsubscribing the first closes only its own channel, deletes the
stream key from the registry even while the second subscriber remains
subscribed, and is idempotent (the channel is closed exactly once);
unsubscribing the second then closes the second channel exactly once. -/
theorem claim_C1_amended (s : DevState) (config : String)
    (hcs : s.connectionState = .connected) (hstreams : s.streams = [])
    (hsubs : s.subs = []) (hch : s.channels = [true]) :
    ((createGazeStream (createGazeStream s config).1 config).2 = (createGazeStream s config).2) ∧
    (((subscribeGaze (subscribeGaze s config).1 config).1).gazeOpenCalls
      = s.gazeOpenCalls + 2) ∧
    (let sC := gazeOpenOkStep (gazeOpenOkStep
        ((subscribeGaze (subscribeGaze s config).1 config).1) 0) 1
     let sD := unsubscribeStep sC 0
     sC.channels = [true, true, true] ∧
     sD.channels = [true, false, true] ∧
     sD.streams.lookup ("gaze_" ++ config) = none ∧
     (sD.subs[1]?).map Sub.closed = some false ∧
     unsubscribeStep sD 0 = sD ∧
     (unsubscribeStep sD 1).channels = [true, false, false] ∧
     unsubscribeStep (unsubscribeStep sD 1) 1 = unsubscribeStep sD 1) := by
  obtain ⟨cs, hist, ra, wss, strs, no, chs, sbs, evs, pnd, goc⟩ := s
  simp only at hcs hstreams hsubs hch
  subst hcs hstreams hsubs hch
  refine ⟨?_, ?_, ?_, ?_, ?_, ?_, ?_, ?_, ?_⟩ <;>
    simp [createGazeStream, subscribeGaze, gazeOpenOkStep, unsubscribeStep, runCleanup,
      closeGazeWs, subErrorStep, List.lookup]

/-- C1 witness: the amended theorem applied to the concrete connected
state with one open status channel and no streams. -/
theorem claim_C1_witness :
    ((DevState.mk .connected [.disconnected, .connecting, .connected] 0 [("status", 0)]
        [] 0 [true] [] [] none 0).connectionState = .connected) ∧
    (((subscribeGaze (subscribeGaze (DevState.mk .connected
        [.disconnected, .connecting, .connected] 0 [("status", 0)] [] 0 [true] [] [] none 0)
        "cfg").1 "cfg").1).gazeOpenCalls = 0 + 2) := by
  have h := claim_C1_amended (DevState.mk .connected
    [.disconnected, .connecting, .connected] 0 [("status", 0)] [] 0 [true] [] [] none 0)
    "cfg" rfl rfl rfl rfl
  exact ⟨rfl, h.2.1⟩

/-! ## Lemmas about the reconnect cascade -/

theorem cascadeP_round (M a : Nat) (s : DevState) (ha : a < M)
    (h : cascadeP a s) : cascadeP (a + 1) (failRound ⟨true, M⟩ s) := by
  obtain ⟨hcs, hp, hra, hws, hch, hmax, hrec, hconn⟩ := h
  have hif : ¬ (M ≤ a) := by omega
  have b1 : (Ev.connecting == Ev.errorEv maxReconnectError) = false := by rfl
  have b2 : (Ev.errorEv (apiError "Network error during API request")
      == Ev.errorEv maxReconnectError) = false := by decide
  have b3 : ∀ n, (Ev.reconnecting n == Ev.errorEv maxReconnectError) = false := fun _ => rfl
  have b4 : ∀ n, (Ev.reconnecting n == Ev.connecting) = false := fun _ => rfl
  have b5 : (Ev.connecting == Ev.connecting) = true := by rfl
  have b6 : (Ev.errorEv (apiError "Network error during API request")
      == Ev.connecting) = false := by rfl
  unfold cascadeP countMaxErr countReconnecting countConnecting at *
  simp [failRound, step, connectEntry, connectCatch, handleReconnectEntry, setCS, emit,
    hp, hcs, hra, hws, hch, hif, List.countP_append, List.countP_cons,
    b1, b2, b3, b4, b5, b6, hmax, hrec, hconn]

theorem cascadeP_final (M : Nat) (s : DevState)
    (h : cascadeP M s) : cascadeQ M (failRound ⟨true, M⟩ s) := by
  obtain ⟨hcs, hp, hra, hws, hch, hmax, hrec, hconn⟩ := h
  have b1 : (Ev.connecting == Ev.errorEv maxReconnectError) = false := by rfl
  have b2 : (Ev.errorEv (apiError "Network error during API request")
      == Ev.errorEv maxReconnectError) = false := by decide
  have b5 : (Ev.connecting == Ev.connecting) = true := by rfl
  have b6 : (Ev.errorEv (apiError "Network error during API request")
      == Ev.connecting) = false := by rfl
  have b7 : (Ev.errorEv maxReconnectError == Ev.connecting) = false := by rfl
  have b8 : (Ev.errorEv maxReconnectError == Ev.errorEv maxReconnectError) = true := by decide
  unfold cascadeQ countMaxErr countReconnecting countConnecting at *
  simp [failRound, step, connectEntry, connectCatch, handleReconnectEntry, setCS, emit,
    hp, hcs, hra, hws, hch, List.countP_append, List.countP_cons,
    b1, b2, b5, b6, b7, b8, hmax, hrec, hconn]

theorem failRound_pending_none (opts : DevOptions) (s : DevState) (h : s.pending = none) :
    failRound opts s = s := by
  simp [failRound, step, h]

theorem iterFailRounds_stable (opts : DevOptions) (s : DevState) (h : s.pending = none) :
    ∀ k, iterFailRounds opts k s = s := by
  intro k
  induction k with
  | zero => rfl
  | succ k ih =>
    unfold iterFailRounds
    rw [failRound_pending_none opts s h]
    exact ih

theorem iterFailRounds_add (opts : DevOptions) :
    ∀ (m n : Nat) (s : DevState),
      iterFailRounds opts (m + n) s = iterFailRounds opts n (iterFailRounds opts m s) := by
  intro m
  induction m with
  | zero => intro n s; rw [Nat.zero_add]; rfl
  | succ m ih =>
    intro n s
    have e1 : iterFailRounds opts ((m + n) + 1) s = iterFailRounds opts (m + n) (failRound opts s) := rfl
    have e2 : iterFailRounds opts (m + 1) s = iterFailRounds opts m (failRound opts s) := rfl
    rw [(by omega : m + 1 + n = (m + n) + 1), e1, e2]
    exact ih n (failRound opts s)

theorem cascade_terminates (M : Nat) :
    ∀ (j a : Nat) (s : DevState), a + j = M → cascadeP a s →
      cascadeQ M (iterFailRounds ⟨true, M⟩ (j + 1) s) := by
  intro j
  induction j with
  | zero =>
    intro a s hsum hP
    rw [(by omega : a = M)] at hP
    exact cascadeP_final M s hP
  | succ j ih =>
    intro a s hsum hP
    show cascadeQ M (iterFailRounds ⟨true, M⟩ (j + 1) (failRound ⟨true, M⟩ s))
    exact ih (a + 1) (failRound ⟨true, M⟩ s) (by omega) (cascadeP_round M a s (by omega) hP)

theorem cascadeP_start (M : Nat) (hM : 0 < M) :
    cascadeP 1 (runDev ⟨true, M⟩ initDev [.userConnect, .httpOk, .wsOk, .statusClose]) := by
  have hif : ¬ (M ≤ 0) := by omega
  unfold cascadeP countMaxErr countReconnecting countConnecting
  simp [runDev, step, connectEntry, commitConnected, statusCloseStep, handleReconnectEntry,
    setCS, emit, mapSet, initDev, hif, List.lookup, maxReconnectError, connectionError]

/-! ## Claim theorems: C3 (bounded reconnect attempts) -/

/-- C3: a channel close observed while Connected with auto-reconnect
enabled triggers, when every subsequent handshake fails, exactly
maxReconnectAttempts announced reconnect attempts (and as many connect
attempts beyond the original connect); the Connection then reaches the
Error state with exactly one Connection-kind maximum-reconnection-
attempts-exceeded error emitted, and no further automatic retry occurs:
every further round, timer expiry or channel-close notification leaves
the state unchanged. -/
theorem claim_C3 (M k : Nat) (hM : 0 < M) (hk : M ≤ k) :
    (iterFailRounds ⟨true, M⟩ k (runDev ⟨true, M⟩ initDev
        [.userConnect, .httpOk, .wsOk, .statusClose])).connectionState = .error ∧
    countMaxErr (iterFailRounds ⟨true, M⟩ k (runDev ⟨true, M⟩ initDev
        [.userConnect, .httpOk, .wsOk, .statusClose])).events = 1 ∧
    countReconnecting (iterFailRounds ⟨true, M⟩ k (runDev ⟨true, M⟩ initDev
        [.userConnect, .httpOk, .wsOk, .statusClose])).events = M ∧
    countConnecting (iterFailRounds ⟨true, M⟩ k (runDev ⟨true, M⟩ initDev
        [.userConnect, .httpOk, .wsOk, .statusClose])).events = M + 1 ∧
    (iterFailRounds ⟨true, M⟩ k (runDev ⟨true, M⟩ initDev
        [.userConnect, .httpOk, .wsOk, .statusClose])).reconnectAttempts = M ∧
    (∀ j, iterFailRounds ⟨true, M⟩ j (iterFailRounds ⟨true, M⟩ k (runDev ⟨true, M⟩ initDev
        [.userConnect, .httpOk, .wsOk, .statusClose])) =
      iterFailRounds ⟨true, M⟩ k (runDev ⟨true, M⟩ initDev
        [.userConnect, .httpOk, .wsOk, .statusClose])) ∧
    step ⟨true, M⟩ (iterFailRounds ⟨true, M⟩ k (runDev ⟨true, M⟩ initDev
        [.userConnect, .httpOk, .wsOk, .statusClose])) .timerFire =
      iterFailRounds ⟨true, M⟩ k (runDev ⟨true, M⟩ initDev
        [.userConnect, .httpOk, .wsOk, .statusClose]) ∧
    step ⟨true, M⟩ (iterFailRounds ⟨true, M⟩ k (runDev ⟨true, M⟩ initDev
        [.userConnect, .httpOk, .wsOk, .statusClose])) .statusClose =
      iterFailRounds ⟨true, M⟩ k (runDev ⟨true, M⟩ initDev
        [.userConnect, .httpOk, .wsOk, .statusClose]) := by
  have hP1 := cascadeP_start M hM
  have hQ : cascadeQ M (iterFailRounds ⟨true, M⟩ M (runDev ⟨true, M⟩ initDev
      [.userConnect, .httpOk, .wsOk, .statusClose])) := by
    have h := cascade_terminates M (M - 1) 1 _ (by omega) hP1
    rw [(by omega : M - 1 + 1 = M)] at h
    exact h
  have hiter : iterFailRounds ⟨true, M⟩ k (runDev ⟨true, M⟩ initDev
      [.userConnect, .httpOk, .wsOk, .statusClose]) =
      iterFailRounds ⟨true, M⟩ M (runDev ⟨true, M⟩ initDev
      [.userConnect, .httpOk, .wsOk, .statusClose]) := by
    rw [(by omega : k = M + (k - M)), iterFailRounds_add]
    exact iterFailRounds_stable _ _ hQ.2.1 _
  rw [hiter]
  obtain ⟨q1, q2, q3, q4, q5, q6, q7, q8⟩ := hQ
  refine ⟨q1, q6, q7, q8, q3, iterFailRounds_stable _ _ q2, by simp [step, q2], ?_⟩
  simp [step, statusCloseStep, q4, q5, List.lookup]

/-- C3 witness: the claim theorem at the default ceiling of 10 attempts
and 10 failing rounds. -/
theorem claim_C3_witness :
    (0 < 10) ∧ (10 ≤ 10) ∧
    (iterFailRounds ⟨true, 10⟩ 10 (runDev ⟨true, 10⟩ initDev
        [.userConnect, .httpOk, .wsOk, .statusClose])).connectionState = .error ∧
    countMaxErr (iterFailRounds ⟨true, 10⟩ 10 (runDev ⟨true, 10⟩ initDev
        [.userConnect, .httpOk, .wsOk, .statusClose])).events = 1 ∧
    countReconnecting (iterFailRounds ⟨true, 10⟩ 10 (runDev ⟨true, 10⟩ initDev
        [.userConnect, .httpOk, .wsOk, .statusClose])).events = 10 := by
  have h := claim_C3 10 10 (by decide) (by decide)
  exact ⟨by decide, by decide, h.1, h.2.1, h.2.2.1⟩

/-! ## Lemmas about the transition invariant -/

theorem lastState_append_single : ∀ (h : List ConnState) (c : ConnState),
    lastState (h ++ [c]) = c := by
  intro h
  induction h with
  | nil => intro c; rfl
  | cons a t ih =>
    intro c
    cases t with
    | nil => rfl
    | cons b t2 =>
      show lastState (b :: (t2 ++ [c])) = c
      exact ih c

theorem chainOK_append (r : ConnState → ConnState → Bool) :
    ∀ (h : List ConnState) (c : ConnState), chainOK r h = true →
      (lastState h == c || r (lastState h) c) = true → chainOK r (h ++ [c]) = true := by
  intro h
  induction h with
  | nil => intro c _ _; rfl
  | cons a t ih =>
    intro c hok hedge
    cases t with
    | nil =>
      show chainOK r [a, c] = true
      unfold chainOK
      simp only [Bool.and_eq_true]
      exact ⟨hedge, rfl⟩
    | cons b t2 =>
      unfold chainOK at hok
      simp only [Bool.and_eq_true] at hok
      show chainOK r (a :: b :: (t2 ++ [c])) = true
      unfold chainOK
      simp only [Bool.and_eq_true]
      exact ⟨hok.1, ih c hok.2 hedge⟩

theorem edge_to_connecting (a : ConnState) (h : a ≠ .connected) :
    (a == ConnState.connecting || actualEdge a .connecting) = true := by
  cases a with
  | connected => exact absurd rfl h
  | disconnected => rfl
  | connecting => rfl
  | reconnecting => rfl
  | error => rfl

theorem edge_to_disconnected (a : ConnState) :
    (a == ConnState.disconnected || actualEdge a .disconnected) = true := by
  cases a <;> rfl

theorem edge_to_error (a : ConnState)
    (h : a = .connecting ∨ a = .disconnected ∨ a = .connected ∨ a = .error) :
    (a == ConnState.error || actualEdge a .error) = true := by
  rcases h with rfl | rfl | rfl | rfl <;> rfl

theorem edge_to_reconnecting (a : ConnState) (h : a = .connected ∨ a = .error) :
    (a == ConnState.reconnecting || actualEdge a .reconnecting) = true := by
  rcases h with rfl | rfl <;> rfl

theorem edge_to_connected (a : ConnState) (h : a = .connecting ∨ a = .disconnected) :
    (a == ConnState.connected || actualEdge a .connected) = true := by
  rcases h with rfl | rfl <;> rfl

theorem DevInv_of_fields (s t : DevState) (h : DevInv s)
    (h1 : t.connectionState = s.connectionState) (h2 : t.stateHist = s.stateHist)
    (h3 : t.pending = s.pending) : DevInv t := by
  unfold DevInv at *
  rw [h1, h2, h3]
  exact h

theorem DevInv_connectEntry (s : DevState) (h : DevInv s) : DevInv (connectEntry s) := by
  obtain ⟨hlast, hchain, hpw, hps⟩ := h
  unfold connectEntry
  by_cases hc : s.connectionState = .connected
  · rw [if_pos hc]
    exact ⟨hlast, hchain, hpw, hps⟩
  · rw [if_neg hc]
    refine ⟨?_, ?_, ?_, ?_⟩
    · simp only [emit, setCS]
      exact lastState_append_single _ _
    · simp only [emit, setCS]
      exact chainOK_append _ _ _ hchain (hlast ▸ edge_to_connecting _ hc)
    · intro _
      exact Or.inl rfl
    · intro habs
      simp [emit, setCS] at habs

theorem DevInv_handleReconnectEntry (opts : DevOptions) (s : DevState) (h : DevInv s)
    (hcs : s.connectionState = .connected ∨ s.connectionState = .error) :
    DevInv (handleReconnectEntry opts s) := by
  obtain ⟨hlast, hchain, hpw, hps⟩ := h
  unfold handleReconnectEntry
  by_cases hm : opts.maxReconnectAttempts ≤ s.reconnectAttempts
  · rw [if_pos hm]
    refine ⟨?_, ?_, ?_, ?_⟩
    · simp only [emit, setCS]
      exact lastState_append_single _ _
    · simp only [emit, setCS]
      refine chainOK_append _ _ _ hchain (hlast ▸ edge_to_error _ ?_)
      rcases hcs with h1 | h1
      · exact Or.inr (Or.inr (Or.inl h1))
      · exact Or.inr (Or.inr (Or.inr h1))
    · intro habs
      simp at habs
    · intro habs
      simp at habs
  · rw [if_neg hm]
    refine ⟨?_, ?_, ?_, ?_⟩
    · simp only [emit, setCS]
      exact lastState_append_single _ _
    · simp only [emit, setCS]
      exact chainOK_append _ _ _ hchain (hlast ▸ edge_to_reconnecting _ hcs)
    · intro habs
      simp at habs
    · intro _
      exact Or.inl rfl

theorem DevInv_connectCatch (opts : DevOptions) (s : DevState) (e : JsError) (h : DevInv s)
    (hcs : s.connectionState = .connecting ∨ s.connectionState = .disconnected) :
    DevInv (connectCatch opts s e) := by
  obtain ⟨hlast, hchain, hpw, hps⟩ := h
  unfold connectCatch
  have h2 : DevInv { emit (setCS s .error) (.errorEv e) with pending := none } := by
    refine ⟨?_, ?_, ?_, ?_⟩
    · simp only [emit, setCS]
      exact lastState_append_single _ _
    · simp only [emit, setCS]
      refine chainOK_append _ _ _ hchain (hlast ▸ edge_to_error _ ?_)
      rcases hcs with h1 | h1
      · exact Or.inl h1
      · exact Or.inr (Or.inl h1)
    · intro habs
      simp at habs
    · intro habs
      simp at habs
  by_cases ha : opts.autoReconnect
  · simp only [ha, if_true]
    exact DevInv_handleReconnectEntry opts _ h2 (Or.inr rfl)
  · simp only [ha, if_false]
    exact h2

theorem DevInv_commitConnected (s : DevState) (h : DevInv s)
    (hcs : s.connectionState = .connecting ∨ s.connectionState = .disconnected) :
    DevInv (commitConnected s) := by
  obtain ⟨hlast, hchain, hpw, hps⟩ := h
  unfold commitConnected
  refine ⟨?_, ?_, ?_, ?_⟩
  · simp only [emit, setCS]
    exact lastState_append_single _ _
  · simp only [emit, setCS]
    exact chainOK_append _ _ _ hchain (hlast ▸ edge_to_connected _ hcs)
  · intro habs
    simp at habs
  · intro habs
    simp at habs

theorem DevInv_disconnectStep (s : DevState) (h : DevInv s) : DevInv (disconnectStep s) := by
  obtain ⟨hlast, hchain, hpw, hps⟩ := h
  unfold disconnectStep
  refine ⟨?_, ?_, ?_, ?_⟩
  · simp only [emit, setCS]
    exact lastState_append_single _ _
  · simp only [emit, setCS]
    exact chainOK_append _ _ _ hchain (hlast ▸ edge_to_disconnected _)
  · intro _
    exact Or.inr rfl
  · intro _
    exact Or.inr rfl

theorem DevInv_statusCloseStep (opts : DevOptions) (s : DevState) (h : DevInv s) :
    DevInv (statusCloseStep opts s) := by
  unfold statusCloseStep
  split
  · exact h
  · split
    · split
      · rename_i hg
        simp only [Bool.and_eq_true, decide_eq_true_eq] at hg
        exact DevInv_handleReconnectEntry opts _ (DevInv_of_fields s _ h rfl rfl rfl) (Or.inl hg.2)
      · exact DevInv_of_fields s _ h rfl rfl rfl
    · exact h

theorem closeGazeWs_lifecycle (s : DevState) (sub : Sub) :
    (closeGazeWs s sub).connectionState = s.connectionState ∧
    (closeGazeWs s sub).stateHist = s.stateHist ∧
    (closeGazeWs s sub).pending = s.pending := by
  unfold closeGazeWs
  split
  · split <;> exact ⟨rfl, rfl, rfl⟩
  · exact ⟨rfl, rfl, rfl⟩

theorem createGazeStream_lifecycle (s : DevState) (c : String) :
    ((createGazeStream s c).1).connectionState = s.connectionState ∧
    ((createGazeStream s c).1).stateHist = s.stateHist ∧
    ((createGazeStream s c).1).pending = s.pending := by
  unfold createGazeStream
  cases h : s.streams.lookup ("gaze_" ++ c) <;> simp [h]

theorem subscribeGaze_lifecycle (s : DevState) (c : String) :
    ((subscribeGaze s c).1).connectionState = s.connectionState ∧
    ((subscribeGaze s c).1).stateHist = s.stateHist ∧
    ((subscribeGaze s c).1).pending = s.pending := by
  obtain ⟨g1, g2, g3⟩ := createGazeStream_lifecycle s c
  simp only [subscribeGaze]
  by_cases hc : ((createGazeStream s c).1).connectionState = ConnState.connected
  · rw [if_pos hc]
    exact ⟨g1, g2, g3⟩
  · rw [if_neg hc]
    exact ⟨g1, g2, g3⟩

theorem runCleanup_lifecycle (s : DevState) (i : Nat) :
    (runCleanup s i).connectionState = s.connectionState ∧
    (runCleanup s i).stateHist = s.stateHist ∧
    (runCleanup s i).pending = s.pending := by
  unfold runCleanup
  split
  · exact ⟨rfl, rfl, rfl⟩
  · rename_i sub _
    obtain ⟨c1, c2, c3⟩ := closeGazeWs_lifecycle s sub
    exact ⟨c1, c2, c3⟩

theorem subErrorStep_lifecycle (s : DevState) (i : Nat) (e : JsError) :
    (subErrorStep s i e).connectionState = s.connectionState ∧
    (subErrorStep s i e).stateHist = s.stateHist ∧
    (subErrorStep s i e).pending = s.pending := by
  unfold subErrorStep
  split
  · exact ⟨rfl, rfl, rfl⟩
  · rename_i sub _
    split
    · exact ⟨rfl, rfl, rfl⟩
    · exact runCleanup_lifecycle
        { s with subs := s.subs.set i { sub with closed := true, errored := some e } } i

theorem unsubscribeStep_lifecycle (s : DevState) (i : Nat) :
    (unsubscribeStep s i).connectionState = s.connectionState ∧
    (unsubscribeStep s i).stateHist = s.stateHist ∧
    (unsubscribeStep s i).pending = s.pending := by
  unfold unsubscribeStep
  split
  · exact ⟨rfl, rfl, rfl⟩
  · rename_i sub _
    split
    · exact ⟨rfl, rfl, rfl⟩
    · exact runCleanup_lifecycle
        { s with subs := s.subs.set i { sub with closed := true } } i

theorem gazeOpenOkStep_lifecycle (s : DevState) (i : Nat) :
    (gazeOpenOkStep s i).connectionState = s.connectionState ∧
    (gazeOpenOkStep s i).stateHist = s.stateHist ∧
    (gazeOpenOkStep s i).pending = s.pending := by
  unfold gazeOpenOkStep
  split
  · exact ⟨rfl, rfl, rfl⟩
  · split <;> exact ⟨rfl, rfl, rfl⟩

theorem gazeOpenFailStep_lifecycle (s : DevState) (i : Nat) :
    (gazeOpenFailStep s i).connectionState = s.connectionState ∧
    (gazeOpenFailStep s i).stateHist = s.stateHist ∧
    (gazeOpenFailStep s i).pending = s.pending := by
  unfold gazeOpenFailStep
  split
  · exact ⟨rfl, rfl, rfl⟩
  · rename_i sub _
    split
    · exact subErrorStep_lifecycle
        { s with subs := s.subs.set i { sub with awaitingOpen := false } } i
        (streamError "Failed to start gaze stream" "STREAM_START_FAILED")
    · exact ⟨rfl, rfl, rfl⟩

theorem DevInv_step (opts : DevOptions) (s : DevState) (l : Label) (h : DevInv s) :
    DevInv (step opts s l) := by
  cases l with
  | userConnect =>
    simp only [step]
    by_cases hp : s.pending = none
    · rw [if_pos hp]
      exact DevInv_connectEntry s h
    · rw [if_neg hp]
      exact h
  | userDisconnect => exact DevInv_disconnectStep s h
  | httpOk =>
    simp only [step]
    by_cases hp : s.pending = some ConnPending.awaitingHttp
    · rw [if_pos hp]
      obtain ⟨hlast, hchain, hpw, hps⟩ := h
      exact ⟨hlast, hchain, fun _ => hpw (Or.inl hp), fun habs => by simp at habs⟩
    · rw [if_neg hp]
      exact h
  | httpFail =>
    simp only [step]
    by_cases hp : s.pending = some ConnPending.awaitingHttp
    · rw [if_pos hp]
      exact DevInv_connectCatch opts s _ h (h.2.2.1 (Or.inl hp))
    · rw [if_neg hp]
      exact h
  | wsOk =>
    simp only [step]
    by_cases hp : s.pending = some ConnPending.awaitingWs
    · rw [if_pos hp]
      exact DevInv_commitConnected s h (h.2.2.1 (Or.inr hp))
    · rw [if_neg hp]
      exact h
  | wsFail =>
    simp only [step]
    by_cases hp : s.pending = some ConnPending.awaitingWs
    · rw [if_pos hp]
      exact DevInv_connectCatch opts s _ h (h.2.2.1 (Or.inr hp))
    · rw [if_neg hp]
      exact h
  | timerFire =>
    simp only [step]
    by_cases hp : s.pending = some ConnPending.sleeping
    · rw [if_pos hp]
      refine DevInv_connectEntry _ ?_
      exact ⟨h.1, h.2.1, fun habs => by simp at habs, fun habs => by simp at habs⟩
    · rw [if_neg hp]
      exact h
  | statusClose => exact DevInv_statusCloseStep opts s h
  | subscribe c =>
    obtain ⟨h1, h2, h3⟩ := subscribeGaze_lifecycle s c
    exact DevInv_of_fields s _ h h1 h2 h3
  | unsub i =>
    obtain ⟨h1, h2, h3⟩ := unsubscribeStep_lifecycle s i
    exact DevInv_of_fields s _ h h1 h2 h3
  | gazeOpenOk i =>
    obtain ⟨h1, h2, h3⟩ := gazeOpenOkStep_lifecycle s i
    exact DevInv_of_fields s _ h h1 h2 h3
  | gazeOpenFail i =>
    obtain ⟨h1, h2, h3⟩ := gazeOpenFailStep_lifecycle s i
    exact DevInv_of_fields s _ h h1 h2 h3

theorem DevInv_runDev :
    ∀ (labels : List Label) (opts : DevOptions) (s : DevState), DevInv s →
      DevInv (runDev opts s labels) := by
  intro labels
  induction labels with
  | nil => intro opts s h; exact h
  | cons l rest ih =>
    intro opts s h
    exact ih opts (step opts s l) (DevInv_step opts s l h)

theorem DevInv_init : DevInv initDev := by
  refine ⟨rfl, rfl, ?_, ?_⟩ <;> intro habs <;> simp [initDev] at habs

/-! ## Claim theorems: C5 amended -/

/-- C5 amended: over every schedule from the fresh device, every
connectionState transition is one of the claimed edges or one of the
additional edges the code exhibits: Reconnecting to Connecting and Error
to Connecting (every reconnect or user-initiated retry re-enters connect
and passes through Connecting instead of moving to Connected directly),
Error to Reconnecting (auto-reconnect re-entry after a failed attempt),
Disconnected to Connected and Disconnected to Error (an in-flight
connect whose handshake settles after an interleaved disconnect), and
Connected to Error (a close observed with the attempt ceiling already
reached, possible with a zero ceiling). -/
theorem claim_C5_amended (opts : DevOptions) (labels : List Label) :
    chainOK actualEdge ((runDev opts initDev labels).stateHist) = true :=
  (DevInv_runDev labels opts initDev DevInv_init).2.1

end OpenNeon
